import Mathlib

/-!
Verification of the audio source-tracking and streaming pipeline of
pulseshitter, shallowly embedded from `src/audio/{source,system,analysis}.rs`
and the constants in `src/audio/mod.rs`.

Modelling conventions:
* Machine numbers: `u32` indices become `Nat`; `f32`/`f64` sample values,
  volumes and similarity scores become `ℚ` (exact arithmetic in place of
  floating point); `Instant` timestamps become `ℚ` seconds, and
  `age.elapsed()` becomes `max (now - age) 0`.
* Interior mutability: a Rust `Source` shares its mutable fields
  (`name`, `sink_input`, `available`, `age`, `volume`) through `Arc` cells, so
  clones of one `Source` alias each other.  The embedding gives every `Source`
  an `id : Nat` standing for that `Arc` pointer identity; a mutation of one
  source is applied to every aliased copy (same `id`) held in the selector
  state.
* The `strsim::jaro` call and the `f32::powf`/`f32::log10` calls are
  external library functions (transcendental over the rationals), so the
  functions that use them take the library function as an explicit parameter
  (`jaroFn`, `pw`, `lg`).  Theorems either hold for every instantiation or
  instantiate them only at arguments where the real function's value is exact
  (`powf 1 0.8 = 1`).
-/

/-- `SinkInput` (src/audio/pulse.rs): the raw capture-target descriptor.
Only the fields read by `source.rs` are modelled. -/
structure SinkInput where
  index : Nat
  name : String
  volume : ℚ
deriving DecidableEq

/-- `BrowserKind` (src/audio/source.rs): currently supported browser edge cases. -/
inductive BrowserKind where
  | firefox
  | chrome
deriving DecidableEq

/-- `SourceKind` (src/audio/source.rs). -/
inductive SourceKind where
  | standalone
  | browserTab (b : BrowserKind)
deriving DecidableEq

/-- `Source` (src/audio/source.rs): a sink input simplified for ease of use.
`id` models the `Arc` pointer identity of the shared mutable cells (see the
module comment); the remaining fields are the Rust struct's fields. -/
structure Source where
  id : Nat
  kind : SourceKind
  sinkInput : SinkInput
  name : String
  application : String
  available : Bool
  age : ℚ
  volume : ℚ
deriving DecidableEq

/-- `SourceComparison` (src/audio/source.rs); `fuzzy` is Rust's `Partial`
(that constructor name is unavailable in this development). -/
inductive SourceComparison where
  | exact
  | fuzzy (score : ℚ)
  | noMatch
deriving DecidableEq

/-- `Source::index` (src/audio/source.rs): `self.sink_input.lock().index`. -/
def Source.index (self : Source) : Nat :=
  self.sinkInput.index

/-- `Source::MAX_LIFESPAN` (src/audio/source.rs): how long a source persists
after it is unavailable, in seconds. -/
def Source.MAX_LIFESPAN : ℚ := 60

/-- `Source::update` (src/audio/source.rs, lines 169-177). -/
def Source.update (now : ℚ) (self incoming : Source) : Source :=
  { self with
    age := now
    name := incoming.name
    sinkInput := incoming.sinkInput
    volume := incoming.volume
    available := true }

/-- `Source::compare` (src/audio/source.rs, lines 180-195).  `jaroFn` stands
for `strsim::jaro`. -/
def Source.compare (jaroFn : String → String → ℚ) (self rhs : Source) :
    SourceComparison :=
  let isSameIndex := self.index = rhs.index
  let isSameName := self.name = rhs.name
  if isSameIndex ∨ isSameName then .exact
  else if self.application ≠ rhs.application then .noMatch
  else .fuzzy (jaroFn self.name rhs.name)

/-- `Source::remove` (src/audio/source.rs). -/
def Source.remove (self : Source) : Source :=
  { self with available := false }

/-- `Instant::elapsed` at instant `now` for the stored instant `age`
(saturating at zero, as `Instant` arithmetic does). -/
def instantElapsed (now age : ℚ) : ℚ :=
  if now - age < 0 then 0 else now - age

/-- `Source::is_dead` (src/audio/source.rs, lines 201-203):
`!self.available() && self.age.load().elapsed() >= Self::MAX_LIFESPAN`. -/
def Source.isDead (now : ℚ) (self : Source) : Bool :=
  !self.available && decide (Source.MAX_LIFESPAN ≤ instantElapsed now self.age)

/-- `SourceComparison::is_similar_enough` (src/audio/source.rs, lines 226-234). -/
def SourceComparison.isSimilarEnough : SourceComparison → Bool
  | .fuzzy score => decide ((3 : ℚ) / 10 < score)
  | .exact => true
  | .noMatch => false

/-- `SPOTIFY_NAME` (src/audio/source.rs). -/
def SPOTIFY_NAME : String := "Spotify"

/-- Rust `str::to_uppercase` (which is per-character uppercasing on the ASCII
text this program compares).  `String.toUpper` is not kernel-reducible, so the
character map is applied directly. -/
def strToUpper (s : String) : String :=
  String.mk (s.data.map Char.toUpper)

/-- `libpulse` subscription operation (only the three variants used). -/
inductive Operation where
  | new
  | changed
  | removed
deriving DecidableEq

/-- `SourceSelector` (src/audio/source.rs): the three pieces of state behind
its mutexes.  The `client` handle is not state; enumeration results are passed
to `handleSinkInputEvent` explicitly. -/
structure SourceSelector where
  currentSource : Option Source
  selectedSource : Option Source
  storedSources : List Source
deriving DecidableEq

/-- `SourceSelector::sources` (src/audio/source.rs, lines 58-68).
`allowSpotify` models `ALLOW_SPOTIFY_STREAMING.is_some()` (a compile-time
environment option). -/
def SourceSelector.sources (allowSpotify : Bool) (self : SourceSelector) :
    List Source :=
  self.storedSources.filter
    (fun s => allowSpotify || !(strToUpper s.name == strToUpper SPOTIFY_NAME))

/-- Apply a mutation of the source identified by `targetId` to every aliased
copy of it held in the selector state (Rust mutates through shared `Arc`s). -/
def SourceSelector.applyAll (targetId : Nat) (f : Source → Source)
    (self : SourceSelector) : SourceSelector :=
  let g := fun (t : Source) => if t.id = targetId then f t else t
  { currentSource := self.currentSource.map g
    selectedSource := self.selectedSource.map g
    storedSources := self.storedSources.map g }

/-- The `current_sources.retain(|s| !s.is_dead())` step ending
`SourceSelector::handle_sink_input_event` (src/audio/source.rs, line 134). -/
def SourceSelector.pruneDead (now : ℚ) (self : SourceSelector) :
    SourceSelector :=
  { self with storedSources := self.storedSources.filter (fun s => !s.isDead now) }

/-- `SourceSelector::handle_sink_input_event` (src/audio/source.rs,
lines 91-135).  `newSources` is the fresh enumeration
(`self.client.sink_inputs()` already converted to sources), `now` the current
instant.  A `.expect` panic in Rust is modelled by returning `none`. -/
def SourceSelector.handleSinkInputEvent (jaroFn : String → String → ℚ)
    (now : ℚ) (newSources : List Source) (index : Nat) (operation : Operation)
    (self : SourceSelector) : Option SourceSelector :=
  let source := newSources.find? (fun x => x.sinkInput.index == index)
  let existingSource := self.storedSources.find? (fun x => x.sinkInput.index == index)
  let handled : Option SourceSelector :=
    match operation with
    | .new => do
        let newSource ← source
        let newAsSelected := Option.filter
          (fun s => !s.available && (Source.compare jaroFn s newSource).isSimilarEnough)
          self.selectedSource
        match newAsSelected with
        | some selected =>
            some (self.applyAll selected.id (fun t => t.update now newSource))
        | none =>
            some { self with storedSources := self.storedSources ++ [newSource] }
    | .changed => do
        let existing ← existingSource
        let src ← source
        some (self.applyAll existing.id (fun t => t.update now src))
    | .removed => do
        let existing ← existingSource
        some (self.applyAll existing.id Source.remove)
  handled.map (fun s => s.pruneDead now)

/-! ### Name selection heuristic (src/audio/source.rs, lines 315-395) -/

/-- `VAGUE_WORDS` (src/audio/source.rs, lines 25-28). -/
def VAGUE_WORDS : List String :=
  ["play", "audio", "voice", "stream", "driver", "webrtc", "engine",
   "playback", "callback", "alsa"]

/-- Rust byte length of a string (`str::len`, UTF-8 bytes). -/
def strByteLen (s : String) : Nat :=
  s.data.foldl (fun n c => n + c.utf8Size) 0

/-- `str_is_doublecase` (src/audio/source.rs, lines 368-370):
`str.chars().filter(|c| c.is_lowercase()).count() < str.len()`.
`Char.isLower` matches Rust's `char::is_lowercase` on ASCII text. -/
def strIsDoublecase (s : String) : Bool :=
  (s.data.filter (fun c => c.isLower)).length < strByteLen s

/-- Character class `[^.,\-_\sA-Z]` of `WORD_SPLIT_REGEX`. -/
def wordChar1 (c : Char) : Bool :=
  !(c == '.' || c == ',' || c == '-' || c == '_' || c.isWhitespace ||
    ('A' ≤ c && c ≤ 'Z'))

/-- Character class `[^.,\-_\sa-z]` of `WORD_SPLIT_REGEX`. -/
def wordChar2 (c : Char) : Bool :=
  !(c == '.' || c == ',' || c == '-' || c == '_' || c.isWhitespace ||
    ('a' ≤ c && c ≤ 'z'))

/-- Character class `[^.\sA-Z]` of `WORD_SPLIT_REGEX`. -/
def wordChar3 (c : Char) : Bool :=
  !(c == '.' || c.isWhitespace || ('A' ≤ c && c ≤ 'Z'))

/-- `WORD_SPLIT_REGEX.find_iter` (src/audio/source.rs, lines 363-366): all
non-overlapping leftmost-first matches of
`([^.,\-_\sA-Z]+)|([^.,\-_\sa-z][^.\sA-Z]+)`, scanning left to right; at each
position the first alternative is preferred and `+` is greedy. -/
def scanWordsAux : Nat → List Char → List String
  | 0, _ => []
  | _, [] => []
  | fuel + 1, c :: rest =>
    if wordChar1 c then
      String.mk (c :: rest.takeWhile wordChar1) ::
        scanWordsAux fuel (rest.dropWhile wordChar1)
    else if wordChar2 c then
      if (rest.takeWhile wordChar3).isEmpty then scanWordsAux fuel rest
      else
        String.mk (c :: rest.takeWhile wordChar3) ::
          scanWordsAux fuel (rest.dropWhile wordChar3)
    else scanWordsAux fuel rest

/-- The scan is run with fuel `l.length`; every step consumes at least one
character, so the fuel never runs out (structural recursion keeps the
definition kernel-reducible). -/
def scanWords (l : List Char) : List String :=
  scanWordsAux l.length l

/-- `calculate_name_quality` (src/audio/source.rs, lines 372-395). -/
def calculateNameQuality (s : String) : Int :=
  let base : Int := if strIsDoublecase s then 1 else 0
  base + (scanWords s.data).foldl
    (fun acc w =>
      if VAGUE_WORDS.any (fun word => strToUpper w == strToUpper word) then acc - 1
      else acc + 1)
    0

/-- `BrowserKind::FIREFOX` / `BrowserKind::CHROME` and its `Display` impl. -/
def BrowserKind.displayName : BrowserKind → String
  | .firefox => "Firefox"
  | .chrome => "Chrome"

/-- `BrowserKind::parse` (src/audio/source.rs, lines 278-284). -/
def BrowserKind.parse (name : String) : Option BrowserKind :=
  if strToUpper name == strToUpper "Firefox" then some .firefox
  else if strToUpper name == strToUpper "Chrome" then some .chrome
  else none

/-- `SourceKind::parse` (src/audio/source.rs, lines 245-252). -/
def SourceKind.parse (candidates : List String) : SourceKind :=
  match candidates.findSome? BrowserKind.parse with
  | some b => .browserTab b
  | none => .standalone

/-- `BrowserKind::determine_tab_name` (src/audio/source.rs, lines 286-295). -/
def BrowserKind.determineTabName (b : BrowserKind) (candidates : List String) :
    String :=
  let browserName := b.displayName
  (candidates.find? (fun c => !(strToUpper c == strToUpper browserName))).getD
    ("Unidentifiable " ++ browserName ++ " Tab")

/-- `SourceKind::determine_name` (src/audio/source.rs, lines 254-264). -/
def SourceKind.determineName : SourceKind → List String → String
  | .browserTab b, candidates => b.determineTabName candidates
  | .standalone, candidates =>
      candidates.head?.getD "Unidentifiable audio source"

/-- The name-selection pipeline of `impl From<SinkInput> for Source`
(src/audio/source.rs, lines 315-341), starting from the flattened candidate
strings: score with `calculate_name_quality`, keep scores `> 1`, stable-sort
descending by score, parse the `SourceKind`, determine the name. -/
def sourceNameFromCandidates (candidates : List String) : String :=
  let scored := candidates.filterMap (fun s =>
    let score := calculateNameQuality s
    if score > 1 then some (s, score) else none)
  -- `sort_by(|(_, a), (_, b)| b.cmp(a))` is a stable descending sort; a stable
  -- sort's output is unique, so insertion sort models it exactly.
  let sorted := List.insertionSort (fun a b => b.2 ≤ a.2) scored
  let names := sorted.map (fun p => p.1)
  let kind := SourceKind.parse names
  kind.determineName names

/-! ### Meter (src/audio/analysis.rs) and constants (src/audio/mod.rs) -/

/-- `SAMPLE_RATE` (src/audio/mod.rs). -/
def SAMPLE_RATE : Nat := 48000

/-- `SAMPLE_IN_BYTES` (src/audio/mod.rs). -/
def SAMPLE_IN_BYTES : Nat := 4

/-- The mutable state of `Meter` (src/audio/analysis.rs, lines 10-17),
samples as exact rationals. -/
structure MeterState where
  windowSize : Nat
  currentValue : ℚ
  samplesSinceLastPeak : Nat
  buffer : List ℚ
deriving DecidableEq

namespace Meter

/-- `Meter::DEFAULT_WINDOW_SIZE` (src/audio/analysis.rs, line 20). -/
def DEFAULT_WINDOW_SIZE : Nat := SAMPLE_RATE / 16

/-- `Meter::DB_RANGE` (src/audio/analysis.rs, line 21). -/
def DB_RANGE : ℚ := 70

/-- `Meter::MAX_SMOOTHING` (src/audio/analysis.rs, line 24). -/
def MAX_SMOOTHING : ℚ := 2 / 100

/-- `Meter::MIN_SMOOTHING` (src/audio/analysis.rs, line 25). -/
def MIN_SMOOTHING : ℚ := 2 / 10

/-- `Meter::SMOOTHING_BOUNDARY` (src/audio/analysis.rs, line 28). -/
def SMOOTHING_BOUNDARY : ℚ := 99 / 100

/-- `Meter::SMOOTHING_RELEASE` (src/audio/analysis.rs, line 31). -/
def SMOOTHING_RELEASE : Nat := SAMPLE_RATE * 10

/-- `Meter::new` (src/audio/analysis.rs, lines 33-40). -/
def new : MeterState :=
  { windowSize := DEFAULT_WINDOW_SIZE
    currentValue := 0
    samplesSinceLastPeak := 0
    buffer := [] }

end Meter

/-- `faster_max` (src/audio/analysis.rs, lines 141-147). -/
def fasterMax (a b : ℚ) : ℚ :=
  if a > b then a else b

/-- `f32::max` (used as `(1. - x).max(0.)` in the release computation). -/
def fmax (a b : ℚ) : ℚ :=
  if a < b then b else a

/-- `f32::abs`. -/
def fabs (x : ℚ) : ℚ :=
  if x < 0 then -x else x

/-- The rolling window after `buffer.extend_from_slice(buf)` and the
`buffer.drain(..overflow)` of `process_multiversioned` (src/audio/analysis.rs,
lines 64-71): `overflow = max 0 (len - window_size)` samples are removed from
the front. -/
def MeterState.processedBuffer (m : MeterState) (buf : List ℚ) : List ℚ :=
  let buffer := m.buffer ++ buf
  buffer.drop (buffer.length - m.windowSize)

/-- The peak absolute sample of the window:
`buffer.iter().fold(0f32, |acc, x| faster_max(acc, (*x).abs()))`. -/
def windowPeak (l : List ℚ) : ℚ :=
  l.foldl (fun acc x => fasterMax acc (fabs x)) 0

/-- The `release` value of `process_multiversioned` (src/audio/analysis.rs,
lines 84-86): `(1. - samples_since_last_peak / SMOOTHING_RELEASE).max(0.).powf(0.8)`.
`pw` stands for the extern `f32::powf (·) 0.8` (the one transcendental
operation; `pw 0 = 0` and `pw 1 = 1` hold for the real function). -/
def meterRelease (pw : ℚ → ℚ) (samplesSinceLastPeak : Nat) : ℚ :=
  pw (fmax (1 - (samplesSinceLastPeak : ℚ) / (Meter.SMOOTHING_RELEASE : ℚ)) 0)

/-- The `smoothing` value of `process_multiversioned` (src/audio/analysis.rs,
lines 88-94). -/
def meterSmoothing (pw : ℚ → ℚ) (samplesSinceLastPeak : Nat) : ℚ :=
  let maxSmoothing := (1 - Meter.MAX_SMOOTHING) + Meter.MAX_SMOOTHING * Meter.SMOOTHING_BOUNDARY
  let minSmoothing := (1 - Meter.MIN_SMOOTHING) + Meter.MIN_SMOOTHING * Meter.SMOOTHING_BOUNDARY
  minSmoothing + (maxSmoothing - minSmoothing) * meterRelease pw samplesSinceLastPeak

/-- `process_multiversioned` (src/audio/analysis.rs, lines 59-99). -/
def Meter.process (pw : ℚ → ℚ) (m : MeterState) (buf : List ℚ) : MeterState :=
  let buffer := m.processedBuffer buf
  let currentValue := m.currentValue
  let maxValue := windowPeak buffer
  if maxValue > currentValue then
    { m with buffer := buffer, currentValue := maxValue, samplesSinceLastPeak := 0 }
  else
    { m with buffer := buffer
             samplesSinceLastPeak := m.samplesSinceLastPeak + buf.length
             currentValue := currentValue * meterSmoothing pw m.samplesSinceLastPeak }

/-- `Meter::dbfs` (src/audio/analysis.rs, lines 50-52):
`self.value().log10() * 20.`; `lg` stands for the extern `f32::log10`. -/
def Meter.dbfs (lg : ℚ → ℚ) (v : ℚ) : ℚ :=
  lg v * 20

/-- `Meter::value_ranged` (src/audio/analysis.rs, lines 54-56):
`(Self::DB_RANGE + self.dbfs()) / Self::DB_RANGE` — note: no clamping. -/
def Meter.valueRanged (lg : ℚ → ℚ) (v : ℚ) : ℚ :=
  (Meter.DB_RANGE + Meter.dbfs lg v) / Meter.DB_RANGE

/-! ### AudioStream::read (src/audio/system.rs, lines 195-208) -/

/-- `impl Read for AudioStream` (src/audio/system.rs, lines 195-208).  The
ring-buffer consumer is a byte list; `read_exact` consumes up to
`safe_length` bytes and its error (not enough buffered data) is discarded by
`unwrap_or_default()`; the returned count is always `Ok(safe_length)`. -/
def audioStreamRead (consumer : List Nat) (bufLen : Nat) :
    Except String (Nat × List Nat) :=
  let stereo := SAMPLE_IN_BYTES * 2
  let safeLength := bufLen / stereo * stereo
  Except.ok (safeLength, consumer.drop safeLength)

/-- A concrete standalone source, for instantiating theorems: the mutable
cells' identity, the raw index, the display name, the owning application, the
availability flag and the age. -/
def sampleSource (id index : Nat) (name app : String) (avail : Bool)
    (age : ℚ) : Source :=
  { id := id
    kind := .standalone
    sinkInput := { index := index, name := name, volume := 1 }
    name := name
    application := app
    available := avail
    age := age
    volume := 1 }

/-- A concrete meter state just after processing the peak sample 1: the
window holds `[1]`, the current value is 1, the peak counter is 0. -/
def meterAfterPeak : MeterState :=
  { windowSize := 3000, currentValue := 1, samplesSinceLastPeak := 0, buffer := [1] }

/-! ### General lemmas -/

theorem fasterMax_eq_max (a b : ℚ) : fasterMax a b = max a b := by
  rcases le_or_lt a b with h | h
  · rw [fasterMax, if_neg (not_lt.mpr h), max_eq_right h]
  · rw [fasterMax, if_pos h, max_eq_left h.le]

theorem fabs_eq_abs (x : ℚ) : fabs x = |x| := by
  rcases le_or_lt 0 x with h | h
  · rw [fabs, if_neg (not_lt.mpr h), abs_of_nonneg h]
  · rw [fabs, if_pos h, abs_of_neg h]

theorem fmax_eq_max (a b : ℚ) : fmax a b = max a b := by
  rcases le_or_lt b a with h | h
  · rw [fmax, if_neg (not_lt.mpr h), max_eq_left h]
  · rw [fmax, if_pos h, max_eq_right h.le]

theorem windowPeak_foldl (l : List ℚ) (a : ℚ) (ha : 0 ≤ a) :
    l.foldl (fun acc x => fasterMax acc (fabs x)) a = max a (windowPeak l) := by
  induction l generalizing a with
  | nil => simp only [List.foldl_nil, windowPeak, max_eq_left ha]
  | cons x xs ih =>
    have hax : 0 ≤ fasterMax a (fabs x) := by
      rw [fasterMax_eq_max, fabs_eq_abs]
      exact le_max_of_le_left ha
    have h0x : 0 ≤ fasterMax 0 (fabs x) := by
      rw [fasterMax_eq_max, fabs_eq_abs]
      exact le_max_left _ _
    have hx : fasterMax 0 (fabs x) = |x| := by
      rw [fasterMax_eq_max, fabs_eq_abs, max_comm, max_eq_left (abs_nonneg x)]
    have lhs : (x :: xs).foldl (fun acc x => fasterMax acc (fabs x)) a
        = max (max a |x|) (windowPeak xs) := by
      rw [List.foldl_cons, ih _ hax, fasterMax_eq_max, fabs_eq_abs]
    have rhs : windowPeak (x :: xs) = max |x| (windowPeak xs) := by
      show (x :: xs).foldl (fun acc x => fasterMax acc (fabs x)) 0 = _
      rw [List.foldl_cons, ih _ h0x, hx]
    rw [lhs, rhs, max_assoc]

theorem windowPeak_nonneg (l : List ℚ) : 0 ≤ windowPeak l := by
  have h := windowPeak_foldl l 0 le_rfl
  have : windowPeak l = max 0 (windowPeak l) := h
  rw [this]
  exact le_max_left _ _

theorem windowPeak_append (a b : List ℚ) :
    windowPeak (a ++ b) = max (windowPeak a) (windowPeak b) := by
  show (a ++ b).foldl (fun acc x => fasterMax acc (fabs x)) 0 = _
  rw [List.foldl_append]
  exact windowPeak_foldl b (windowPeak a) (windowPeak_nonneg a)

theorem windowPeak_drop_le (l : List ℚ) (n : Nat) :
    windowPeak (l.drop n) ≤ windowPeak l := by
  conv_rhs => rw [← List.take_append_drop n l]
  rw [windowPeak_append]
  exact le_max_right _ _

theorem windowPeak_of_silent (l : List ℚ) (h : ∀ x ∈ l, x = 0) :
    windowPeak l = 0 := by
  induction l with
  | nil => rfl
  | cons x xs ih =>
    have hx : x = 0 := h x (List.mem_cons_self x xs)
    have hxs : windowPeak xs = 0 := ih (fun y hy => h y (List.mem_cons_of_mem x hy))
    have h00 : fasterMax 0 (fabs 0) = 0 := by norm_num [fasterMax, fabs]
    show (x :: xs).foldl (fun acc x => fasterMax acc (fabs x)) 0 = 0
    rw [List.foldl_cons, hx, h00]
    exact hxs

theorem meterRelease_mem (pw : ℚ → ℚ)
    (hpw : ∀ x, 0 ≤ x → x ≤ 1 → 0 ≤ pw x ∧ pw x ≤ 1) (n : Nat) :
    0 ≤ meterRelease pw n ∧ meterRelease pw n ≤ 1 := by
  rw [meterRelease]
  apply hpw
  · rw [fmax_eq_max]
    exact le_max_right _ _
  · rw [fmax_eq_max, max_le_iff]
    constructor
    · have h1 : (0 : ℚ) ≤ (n : ℚ) / (Meter.SMOOTHING_RELEASE : ℚ) := by
        apply div_nonneg (Nat.cast_nonneg n) (Nat.cast_nonneg _)
      linarith
    · norm_num

theorem meterSmoothing_bounds (pw : ℚ → ℚ)
    (hpw : ∀ x, 0 ≤ x → x ≤ 1 → 0 ≤ pw x ∧ pw x ≤ 1) (n : Nat) :
    0 ≤ meterSmoothing pw n ∧ meterSmoothing pw n ≤ 1 := by
  obtain ⟨h0, h1⟩ := meterRelease_mem pw hpw n
  rw [meterSmoothing, Meter.MAX_SMOOTHING, Meter.MIN_SMOOTHING, Meter.SMOOTHING_BOUNDARY]
  constructor <;> nlinarith

theorem process_buffer (pw : ℚ → ℚ) (m : MeterState) (buf : List ℚ) :
    (Meter.process pw m buf).buffer = m.processedBuffer buf := by
  rw [Meter.process]
  split <;> rfl

theorem process_windowSize (pw : ℚ → ℚ) (m : MeterState) (buf : List ℚ) :
    (Meter.process pw m buf).windowSize = m.windowSize := by
  rw [Meter.process]
  split <;> rfl

theorem process_currentValue (pw : ℚ → ℚ) (m : MeterState) (buf : List ℚ) :
    (Meter.process pw m buf).currentValue =
      if windowPeak (m.processedBuffer buf) > m.currentValue then
        windowPeak (m.processedBuffer buf)
      else m.currentValue * meterSmoothing pw m.samplesSinceLastPeak := by
  rw [Meter.process]
  split <;> rfl

theorem lifespan_le_instantElapsed (now a : ℚ) :
    Source.MAX_LIFESPAN ≤ instantElapsed now a ↔ Source.MAX_LIFESPAN ≤ now - a := by
  rw [instantElapsed, Source.MAX_LIFESPAN]
  split
  · next h =>
    constructor
    · intro h60
      linarith
    · intro h60
      linarith
  · exact Iff.rfl

/-! ### Claim theorems -/

/-- C1 (counterexample): the claim is false as stated — when the two names are
exactly equal, `Source::compare` returns `Exact` (which is similar enough)
even though the `application` identifiers differ, because the name-equality
short-circuit precedes the application check. -/
theorem c1_counterexample :
    (sampleSource 0 1 "My Cool Song" "vlc" true 0).application ≠
      (sampleSource 1 2 "My Cool Song" "mpv" true 0).application ∧
    Source.compare (fun _ _ => 0) (sampleSource 0 1 "My Cool Song" "vlc" true 0)
      (sampleSource 1 2 "My Cool Song" "mpv" true 0) = SourceComparison.exact ∧
    (Source.compare (fun _ _ => 0) (sampleSource 0 1 "My Cool Song" "vlc" true 0)
      (sampleSource 1 2 "My Cool Song" "mpv" true 0)).isSimilarEnough = true := by
  refine ⟨?_, ?_, ?_⟩ <;> decide

/-- C1 (amended): for every existing Source `a` and incoming Source `b` whose
`application` identifiers differ, *provided* neither the raw indices nor the
names are exactly equal (those two checks short-circuit to `Exact` first),
`Source::compare` returns `None` and `b` is never similar enough to reconcile
into `a`, regardless of the Jaro similarity of the names. -/
theorem c1_application_mismatch_never_reconciles
    (jaroFn : String → String → ℚ) (a b : Source)
    (happ : a.application ≠ b.application)
    (hidx : a.index ≠ b.index)
    (hname : a.name ≠ b.name) :
    Source.compare jaroFn a b = SourceComparison.noMatch ∧
    (Source.compare jaroFn a b).isSimilarEnough = false := by
  have h : Source.compare jaroFn a b = SourceComparison.noMatch := by
    simp only [Source.compare]
    rw [if_neg, if_pos happ]
    rintro (h | h)
    · exact hidx h
    · exact hname h
  exact ⟨h, by rw [h]; rfl⟩

/-- C1 (witness): a maximally-similar jaro score (constantly 1) still cannot
reconcile two differently-named sources of different applications. -/
theorem c1_witness :
    Source.compare (fun _ _ => 1) (sampleSource 0 1 "Foo" "vlc" true 0)
      (sampleSource 1 2 "Bar" "mpv" true 0) = SourceComparison.noMatch ∧
    (Source.compare (fun _ _ => 1) (sampleSource 0 1 "Foo" "vlc" true 0)
      (sampleSource 1 2 "Bar" "mpv" true 0)).isSimilarEnough = false :=
  c1_application_mismatch_never_reconciles (fun _ _ => 1)
    (sampleSource 0 1 "Foo" "vlc" true 0) (sampleSource 1 2 "Bar" "mpv" true 0)
    (by decide) (by decide) (by decide)

/-- C3 (counterexample): the claim is false as stated — `sources()` applies
no deadness filter (only the Spotify product filter), so a dead source
(unavailable, age 100 s ≥ 60 s in the past) that has not been pruned by an
event-handling pass is still returned by `sources()`. -/
theorem c3_counterexample :
    (sampleSource 0 1 "Dead" "app" false 0).isDead 100 = true ∧
    (sampleSource 0 1 "Dead" "app" false 0) ∈
      (SourceSelector.mk none none
        [sampleSource 0 1 "Dead" "app" false 0]).sources false := by
  constructor
  · with_unfolding_all decide
  · with_unfolding_all decide

/-- C3 (amended): `Source::is_dead` holds exactly when the source is
unavailable and its age is at least `MAX_LIFESPAN` (60 s) in the past.
Eviction happens only at event handling: the pruning that ends every
`handle_sink_input_event` pass removes exactly the dead sources, so a dead
source is absent from `sources()` of every pruned/post-event state, while a
non-dead (e.g. just-under-threshold) unavailable source is still present
there (provided the Spotify product filter does not drop its name);
`sources()` itself applies no deadness filter, so a source whose lifespan
expires between events remains listed until the next event. -/
theorem c3_ttl_eviction (now : ℚ) :
    (∀ s : Source, s.isDead now = true ↔
      (s.available = false ∧ Source.MAX_LIFESPAN ≤ now - s.age)) ∧
    (∀ (allow : Bool) (sel : SourceSelector) (s : Source),
      s.isDead now = true → s ∉ (sel.pruneDead now).sources allow) ∧
    (∀ (allow : Bool) (sel : SourceSelector) (s : Source),
      s ∈ sel.storedSources → s.isDead now = false →
      (allow || !(strToUpper s.name == strToUpper SPOTIFY_NAME)) = true →
      s ∈ (sel.pruneDead now).sources allow) ∧
    (∀ (jaroFn : String → String → ℚ) (newSources : List Source) (i : Nat)
      (op : Operation) (sel sel' : SourceSelector) (allow : Bool),
      sel.handleSinkInputEvent jaroFn now newSources i op = some sel' →
      ∀ s ∈ sel'.sources allow, s.isDead now = false) := by
  have hchar : ∀ s : Source, s.isDead now = true ↔
      (s.available = false ∧ Source.MAX_LIFESPAN ≤ now - s.age) := by
    intro s
    rw [Source.isDead, Bool.and_eq_true, Bool.not_eq_true', decide_eq_true_eq,
      lifespan_le_instantElapsed]
  have habsent : ∀ (allow : Bool) (sel : SourceSelector) (s : Source),
      s.isDead now = true → s ∉ (sel.pruneDead now).sources allow := by
    intro allow sel s hdead hmem
    rw [SourceSelector.sources] at hmem
    have h1 := (List.mem_filter.mp hmem).1
    rw [SourceSelector.pruneDead] at h1
    have h2 := (List.mem_filter.mp h1).2
    rw [hdead] at h2
    simp at h2
  refine ⟨hchar, habsent, ?_, ?_⟩
  · intro allow sel s hmem halive hspot
    rw [SourceSelector.sources]
    refine List.mem_filter.mpr ⟨?_, hspot⟩
    rw [SourceSelector.pruneDead]
    refine List.mem_filter.mpr ⟨hmem, ?_⟩
    rw [halive]
    rfl
  · intro jaroFn newSources i op sel sel' allow hh s hmem
    simp only [SourceSelector.handleSinkInputEvent] at hh
    obtain ⟨x, -, hx⟩ := Option.map_eq_some'.mp hh
    subst hx
    have h1 := (List.mem_filter.mp ((List.mem_filter.mp hmem).1)).2
    cases hd : s.isDead now with
    | false => rfl
    | true =>
      rw [hd] at h1
      simp at h1

/-- C3 (witness): at `now = 100`, a source unavailable since age 0 (elapsed
100 s ≥ 60 s) is dead and absent after pruning, while one unavailable since
age 41 (elapsed 59 s, just under the 60 s lifespan) is alive and still listed. -/
theorem c3_witness :
    (sampleSource 0 1 "Dead" "app" false 0).isDead 100 = true ∧
    (sampleSource 0 1 "Dead" "app" false 0) ∉
      ((SourceSelector.mk none none
        [sampleSource 0 1 "Dead" "app" false 0,
         sampleSource 1 2 "Alive" "app" false 41]).pruneDead 100).sources false ∧
    (sampleSource 1 2 "Alive" "app" false 41) ∈
      ((SourceSelector.mk none none
        [sampleSource 0 1 "Dead" "app" false 0,
         sampleSource 1 2 "Alive" "app" false 41]).pruneDead 100).sources false := by
  have h := c3_ttl_eviction 100
  have hdead : (sampleSource 0 1 "Dead" "app" false 0).isDead 100 = true :=
    (h.1 _).mpr ⟨rfl, by norm_num [sampleSource, Source.MAX_LIFESPAN]⟩
  refine ⟨hdead, h.2.1 false _ _ hdead, h.2.2.1 false _ _ ?_ ?_ ?_⟩
  · simp [sampleSource]
  · with_unfolding_all decide
  · decide

/-- C4: for every destination buffer and every ring-buffer content (including
a partial frame), `AudioStream::read` returns `Ok n` where `n` is a multiple
of the stereo frame size (`SAMPLE_IN_BYTES * 2 = 8` bytes), namely the largest
such multiple not exceeding the buffer length — it never returns an error, and
whenever the buffer can hold a frame the count is positive (no end-of-stream
signal while capture is idle). -/
theorem c4_read_frame_aligned (consumer : List Nat) (bufLen : Nat) :
    ∃ n rest, audioStreamRead consumer bufLen = .ok (n, rest) ∧
      n % (SAMPLE_IN_BYTES * 2) = 0 ∧
      n ≤ bufLen ∧
      bufLen - n < SAMPLE_IN_BYTES * 2 ∧
      (SAMPLE_IN_BYTES * 2 ≤ bufLen → 0 < n) := by
  refine ⟨bufLen / (SAMPLE_IN_BYTES * 2) * (SAMPLE_IN_BYTES * 2), _, rfl, ?_, ?_, ?_, ?_⟩
  · exact Nat.mul_mod_left _ _
  · exact Nat.div_mul_le_self _ _
  · have h8 : SAMPLE_IN_BYTES * 2 = 8 := by norm_num [SAMPLE_IN_BYTES]
    rw [h8]
    omega
  · intro hle
    have h1 : 0 < bufLen / (SAMPLE_IN_BYTES * 2) := Nat.div_pos hle (by norm_num [SAMPLE_IN_BYTES])
    have h2 : 0 < SAMPLE_IN_BYTES * 2 := by norm_num [SAMPLE_IN_BYTES]
    exact Nat.mul_pos h1 h2

/-- C4 (witness): a 13-byte destination with only 3 buffered bytes (a partial
frame) still reads `Ok 8` — aligned, positive, no error. -/
theorem c4_witness :
    ∃ n rest, audioStreamRead [1, 2, 3] 13 = .ok (n, rest) ∧
      n % (SAMPLE_IN_BYTES * 2) = 0 ∧
      n ≤ 13 ∧
      13 - n < SAMPLE_IN_BYTES * 2 ∧
      (SAMPLE_IN_BYTES * 2 ≤ 13 → 0 < n) :=
  c4_read_frame_aligned [1, 2, 3] 13

/-- C5 (counterexample): the claim is false as stated — after the peak sample
1 is processed (value 1), one silent buffer decays the value to 4999/5000, but
the next silent buffer snaps it back to 1 because the peak sample is still
inside the rolling window: the `value()` sequence 1, 4999/5000, 1 is not
non-increasing although no arriving sample exceeded the current value.
(`fun x => x` stands for `powf (·) 0.8`, which is evaluated only at 1 in this
run, where `powf 1 0.8 = 1` exactly.) -/
theorem c5_counterexample :
    (Meter.process (fun x => x) Meter.new [1]).currentValue = 1 ∧
    (Meter.process (fun x => x) (Meter.process (fun x => x) Meter.new [1])
      [0]).currentValue = 4999 / 5000 ∧
    (Meter.process (fun x => x) (Meter.process (fun x => x) (Meter.process (fun x => x)
      Meter.new [1]) [0]) [0]).currentValue = 1 ∧
    ¬((Meter.process (fun x => x) (Meter.process (fun x => x) (Meter.process (fun x => x)
      Meter.new [1]) [0]) [0]).currentValue ≤
      (Meter.process (fun x => x) (Meter.process (fun x => x) Meter.new [1])
        [0]).currentValue) := by
  have h1 : Meter.process (fun x => x) Meter.new [1] =
      { windowSize := 3000, currentValue := 1, samplesSinceLastPeak := 0,
        buffer := [1] } := by
    norm_num [Meter.process, Meter.new, MeterState.processedBuffer, windowPeak,
      fasterMax, fabs, Meter.DEFAULT_WINDOW_SIZE, SAMPLE_RATE]
  have h2 : Meter.process (fun x => x)
      ({ windowSize := 3000, currentValue := 1, samplesSinceLastPeak := 0,
         buffer := [1] } : MeterState) [0] =
      { windowSize := 3000, currentValue := 4999 / 5000, samplesSinceLastPeak := 1,
        buffer := [1, 0] } := by
    norm_num [Meter.process, MeterState.processedBuffer, windowPeak, fasterMax,
      fabs, fmax, meterSmoothing, meterRelease, Meter.SMOOTHING_RELEASE,
      Meter.MAX_SMOOTHING, Meter.MIN_SMOOTHING, Meter.SMOOTHING_BOUNDARY, SAMPLE_RATE]
  have h3 : Meter.process (fun x => x)
      ({ windowSize := 3000, currentValue := 4999 / 5000, samplesSinceLastPeak := 1,
         buffer := [1, 0] } : MeterState) [0] =
      { windowSize := 3000, currentValue := 1, samplesSinceLastPeak := 0,
        buffer := [1, 0, 0] } := by
    norm_num [Meter.process, MeterState.processedBuffer, windowPeak, fasterMax,
      fabs, fmax, meterSmoothing, meterRelease, Meter.SMOOTHING_RELEASE,
      Meter.MAX_SMOOTHING, Meter.MIN_SMOOTHING, Meter.SMOOTHING_BOUNDARY, SAMPLE_RATE]
  refine ⟨by rw [h1], by rw [h1, h2], by rw [h1, h2, h3], ?_⟩
  rw [h1, h2, h3]
  norm_num

/-- C5 (amended): with the meter's current value at most `p` and the rolling
window's peak at most `p`, processing a silent buffer keeps the reading within
`[0, p]`; the reading increases exactly when the window's peak absolute sample
(possibly an old sample still inside the window, not an arriving one) exceeds
the current value, and is non-increasing whenever the window peak does not
exceed it. `pw` is the release exponentiation, which maps `[0, 1]` into
`[0, 1]` as `powf (·) 0.8` does. -/
theorem c5_meter_decay (pw : ℚ → ℚ)
    (hpw : ∀ x, 0 ≤ x → x ≤ 1 → 0 ≤ pw x ∧ pw x ≤ 1)
    (p : ℚ) (m : MeterState) (buf : List ℚ)
    (hcv0 : 0 ≤ m.currentValue) (hcvp : m.currentValue ≤ p)
    (hwin : windowPeak m.buffer ≤ p)
    (hsilent : ∀ x ∈ buf, x = 0) :
    (0 ≤ (Meter.process pw m buf).currentValue ∧
     (Meter.process pw m buf).currentValue ≤ p ∧
     windowPeak (Meter.process pw m buf).buffer ≤ p) ∧
    ((Meter.process pw m buf).currentValue > m.currentValue ↔
      windowPeak (m.processedBuffer buf) > m.currentValue) ∧
    (windowPeak (m.processedBuffer buf) ≤ m.currentValue →
      (Meter.process pw m buf).currentValue ≤ m.currentValue) := by
  have hp0 : (0 : ℚ) ≤ p := le_trans hcv0 hcvp
  have hpeak : windowPeak (m.processedBuffer buf) ≤ p := by
    calc windowPeak (m.processedBuffer buf)
        ≤ windowPeak (m.buffer ++ buf) := windowPeak_drop_le _ _
      _ = max (windowPeak m.buffer) (windowPeak buf) := windowPeak_append _ _
      _ ≤ p := by
          rw [windowPeak_of_silent buf hsilent]
          exact max_le hwin hp0
  obtain ⟨hsm0, hsm1⟩ := meterSmoothing_bounds pw hpw m.samplesSinceLastPeak
  have hbuf : windowPeak (Meter.process pw m buf).buffer ≤ p := by
    rw [process_buffer]
    exact hpeak
  by_cases hbr : windowPeak (m.processedBuffer buf) > m.currentValue
  · rw [process_currentValue, if_pos hbr] at *
    refine ⟨⟨le_trans hcv0 hbr.le, hpeak, hbuf⟩, iff_of_true hbr hbr, ?_⟩
    intro h
    linarith
  · have hle : m.currentValue * meterSmoothing pw m.samplesSinceLastPeak ≤
        m.currentValue := mul_le_of_le_one_right hcv0 hsm1
    rw [process_currentValue, if_neg hbr] at *
    refine ⟨⟨mul_nonneg hcv0 hsm0, le_trans hle hcvp, hbuf⟩,
      iff_of_false (not_lt.mpr hle) hbr, fun _ => hle⟩

/-- C5 (witness): with the meter just after the peak 1 (window `[1]`, value 1),
one silent buffer keeps the reading in `[0, 1]`; here the drained window still
holds the peak, so the window-peak condition of the increase criterion is
exercised concretely. -/
theorem c5_witness :
    (0 ≤ (Meter.process (fun x => x) meterAfterPeak [0]).currentValue ∧
     (Meter.process (fun x => x) meterAfterPeak [0]).currentValue ≤ 1 ∧
     windowPeak (Meter.process (fun x => x) meterAfterPeak [0]).buffer ≤ 1) ∧
    ((Meter.process (fun x => x) meterAfterPeak [0]).currentValue >
        meterAfterPeak.currentValue ↔
      windowPeak (meterAfterPeak.processedBuffer [0]) > meterAfterPeak.currentValue) ∧
    (windowPeak (meterAfterPeak.processedBuffer [0]) ≤ meterAfterPeak.currentValue →
      (Meter.process (fun x => x) meterAfterPeak [0]).currentValue ≤
        meterAfterPeak.currentValue) :=
  c5_meter_decay (fun x => x) (fun _ h h1 => ⟨h, h1⟩) 1 meterAfterPeak
    [0] (by norm_num [meterAfterPeak]) (by norm_num [meterAfterPeak])
    (by norm_num [meterAfterPeak, windowPeak, fasterMax, fabs])
    (by simp)

/-- C6 (counterexample): the claim is false as stated — `value_ranged` has no
clamp.  At a current value of `10⁻⁷` (dBFS = −140, modelled by the `log10`
stand-in `fun _ => -7`, exact at this point up to f32 rounding),
`value_ranged` is −1, i.e. negative. -/
theorem c6_counterexample :
    Meter.valueRanged (fun _ => -7) (1 / 10000000) = -1 ∧
    ¬(0 ≤ Meter.valueRanged (fun _ => -7) (1 / 10000000)) := by
  constructor
  · norm_num [Meter.valueRanged, Meter.dbfs, Meter.DB_RANGE]
  · norm_num [Meter.valueRanged, Meter.dbfs, Meter.DB_RANGE]

/-- C6 (amended): `dbfs` is `20·log10(value)` and `value_ranged` maps dBFS
into the 70 dB window as `(DB_RANGE + dbfs) / DB_RANGE` with *no* clamping:
whenever dBFS is below −70 (quiet signals, silence), the result is negative. -/
theorem c6_value_ranged (lg : ℚ → ℚ) (v : ℚ) :
    Meter.dbfs lg v = 20 * lg v ∧
    Meter.valueRanged lg v = (Meter.DB_RANGE + Meter.dbfs lg v) / Meter.DB_RANGE ∧
    (Meter.dbfs lg v < -Meter.DB_RANGE → Meter.valueRanged lg v < 0) := by
  refine ⟨by rw [Meter.dbfs, mul_comm], rfl, ?_⟩
  intro h
  rw [Meter.DB_RANGE] at h
  rw [Meter.valueRanged, Meter.DB_RANGE]
  apply div_neg_of_neg_of_pos
  · linarith
  · norm_num

/-- C6 (witness): at value `10⁻⁷` (dBFS −140 < −70), the ranged value is
negative. -/
theorem c6_witness :
    Meter.dbfs (fun _ => -7) (1 / 10000000) = 20 * (-7) ∧
    Meter.valueRanged (fun _ => -7) (1 / 10000000) < 0 :=
  ⟨(c6_value_ranged (fun _ => -7) (1 / 10000000)).1,
   (c6_value_ranged (fun _ => -7) (1 / 10000000)).2.2
     (by norm_num [Meter.dbfs, Meter.DB_RANGE])⟩

/-- C7: on the metadata candidates `["playStream", "Firefox", "My Cool Song"]`
the name-selection pipeline (quality scoring with the `> 1` cutoff, descending
stable sort, browser-kind parsing, name determination) selects
"My Cool Song" (one of the two acceptable answers) and never "playStream":
the vague-word penalty gives "playStream" the score −1, below the cutoff. -/
theorem c7_name_selection :
    (sourceNameFromCandidates ["playStream", "Firefox", "My Cool Song"] =
        "My Cool Song" ∨
     sourceNameFromCandidates ["playStream", "Firefox", "My Cool Song"] =
        "Firefox") ∧
    sourceNameFromCandidates ["playStream", "Firefox", "My Cool Song"] ≠
      "playStream" := by
  refine ⟨Or.inl ?_, ?_⟩ <;> decide

/-- C8 (counterexample): the claim is false as stated — the all-uppercase
candidate "ALSA" *does* receive the double-case point: `str_is_doublecase`
only checks that the lowercase-character count is below the byte length, so
`str_is_doublecase("ALSA") = true` and the score of "ALSA" is 1 (the
double-case point; the word-split regex finds no words in it). -/
theorem c8_counterexample :
    strIsDoublecase "ALSA" = true ∧ calculateNameQuality "ALSA" = 1 := by
  constructor <;> decide

/-- C8 (amended): for single-byte (ASCII) candidates the double-case point is
awarded exactly when *some* character is not lowercase — i.e. when the string
is not all-lowercase; all-uppercase strings do receive it. -/
theorem c8_doublecase (s : String) (hascii : ∀ c ∈ s.data, c.utf8Size = 1) :
    strIsDoublecase s = true ↔ ∃ c ∈ s.data, c.isLower = false := by
  have hlen : strByteLen s = s.data.length := by
    rw [strByteLen]
    have general : ∀ (l : List Char), (∀ c ∈ l, c.utf8Size = 1) →
        ∀ a : Nat, l.foldl (fun n c => n + c.utf8Size) a = a + l.length := by
      intro l
      induction l with
      | nil => intro _ a; simp
      | cons c cs ih =>
        intro h a
        rw [List.foldl_cons, h c (List.mem_cons_self c cs),
          ih (fun d hd => h d (List.mem_cons_of_mem c hd)) (a + 1), List.length_cons]
        omega
    rw [general s.data hascii 0]
    omega
  rw [strIsDoublecase, decide_eq_true_eq, hlen]
  constructor
  · intro hlt
    by_contra hno
    push_neg at hno
    have hall : ∀ c ∈ s.data, c.isLower = true := by
      intro c hc
      cases h : c.isLower with
      | true => rfl
      | false => exact absurd h (hno c hc)
    rw [List.filter_eq_self.mpr hall] at hlt
    exact lt_irrefl _ hlt
  · intro ⟨c, hc, hcl⟩
    apply lt_of_le_of_ne (List.length_filter_le _ _)
    intro heq
    have := List.filter_length_eq_length.mp heq c hc
    rw [hcl] at this
    exact Bool.false_ne_true this

/-- C8 (witness): the amended characterization applied to the all-uppercase
ASCII candidate "ALSA": the double-case point is awarded because 'A' is not
lowercase. -/
theorem c8_witness :
    strIsDoublecase "ALSA" = true ↔ ∃ c ∈ "ALSA".data, c.isLower = false :=
  c8_doublecase "ALSA" (by decide)

/-- C10: every `Meter::process` call leaves the rolling buffer with exactly
`min (old length + input length) window_size` samples — never more than the
window size, whatever the input length — and the retained samples are a suffix
(the most recent ones) of the old buffer followed by the input; the default
window size is `SAMPLE_RATE / 16 = 3000`. -/
theorem c10_window_bound (pw : ℚ → ℚ) (m : MeterState) (buf : List ℚ) :
    (Meter.process pw m buf).buffer.length =
      min (m.buffer.length + buf.length) m.windowSize ∧
    (Meter.process pw m buf).buffer.IsSuffix (m.buffer ++ buf) ∧
    Meter.DEFAULT_WINDOW_SIZE = 3000 := by
  refine ⟨?_, ?_, by norm_num [Meter.DEFAULT_WINDOW_SIZE, SAMPLE_RATE]⟩
  · rw [process_buffer]
    simp only [MeterState.processedBuffer, List.length_drop, List.length_append]
    omega
  · rw [process_buffer]
    simp only [MeterState.processedBuffer]
    exact List.drop_suffix _ _

/-- C9: `Source::compare` is symmetric — for any symmetric similarity function
(the Jaro distance is symmetric in its arguments), `compare a b` and
`compare b a` return the same comparison: index equality, name equality and
application inequality are each symmetric, and the `Partial` scores agree. -/
theorem c9_compare_symmetric (jaroFn : String → String → ℚ)
    (hsym : ∀ x y, jaroFn x y = jaroFn y x) (a b : Source) :
    Source.compare jaroFn a b = Source.compare jaroFn b a := by
  simp only [Source.compare]
  by_cases h1 : a.index = b.index ∨ a.name = b.name
  · have h2 : b.index = a.index ∨ b.name = a.name := by
      rcases h1 with h | h
      · exact Or.inl h.symm
      · exact Or.inr h.symm
    rw [if_pos h1, if_pos h2]
  · have h2 : ¬(b.index = a.index ∨ b.name = a.name) := by
      rintro (h | h)
      · exact h1 (Or.inl h.symm)
      · exact h1 (Or.inr h.symm)
    rw [if_neg h1, if_neg h2]
    by_cases happ : a.application = b.application
    · have e1 : ¬(a.application ≠ b.application) := by simpa using happ
      have e2 : ¬(b.application ≠ a.application) := by simpa using happ.symm
      rw [if_neg e1, if_neg e2, hsym]
    · rw [if_pos happ, if_pos (Ne.symm happ)]

/-- C2: on a `New` event whose fresh enumeration finds source `ns` at the
event's index, if the selected source `s` is unavailable and `ns` compares to
it as similar enough, then `s` is updated in place — available again, age
reset to now, and name/sink-input/volume taken from `ns`, while identity
(`id`, `application`) is preserved — and no new entry is appended to the
stored catalog; otherwise the incoming source is appended as a new catalog
entry (and dead sources are pruned either way). -/
theorem c2_reconcile_or_append (jaroFn : String → String → ℚ) (now : ℚ)
    (newSources : List Source) (index : Nat) (sel : SourceSelector)
    (s ns : Source)
    (hsel : sel.selectedSource = some s)
    (hfind : newSources.find? (fun x => x.sinkInput.index == index) = some ns) :
    (s.available = false →
      (Source.compare jaroFn s ns).isSimilarEnough = true →
      ∃ sel', sel.handleSinkInputEvent jaroFn now newSources index .new = some sel' ∧
        sel'.selectedSource = some (s.update now ns) ∧
        (s.update now ns).available = true ∧
        (s.update now ns).age = now ∧
        (s.update now ns).name = ns.name ∧
        (s.update now ns).sinkInput = ns.sinkInput ∧
        (s.update now ns).volume = ns.volume ∧
        (s.update now ns).id = s.id ∧
        (s.update now ns).application = s.application ∧
        (∀ t ∈ sel'.storedSources, ∃ u ∈ sel.storedSources, t.id = u.id) ∧
        sel'.storedSources.length ≤ sel.storedSources.length) ∧
    (¬(s.available = false ∧ (Source.compare jaroFn s ns).isSimilarEnough = true) →
      ∃ sel', sel.handleSinkInputEvent jaroFn now newSources index .new = some sel' ∧
        sel'.storedSources =
          (sel.storedSources ++ [ns]).filter (fun t => !t.isDead now)) := by
  have hcall : sel.handleSinkInputEvent jaroFn now newSources index .new =
      (if (!s.available && (Source.compare jaroFn s ns).isSimilarEnough) = true then
        some ((sel.applyAll s.id (fun t => t.update now ns)).pruneDead now)
      else
        some (({ sel with storedSources := sel.storedSources ++ [ns] } :
          SourceSelector).pruneDead now)) := by
    have hstep : sel.handleSinkInputEvent jaroFn now newSources index .new =
        Option.map (fun s => SourceSelector.pruneDead now s)
          (match (if (!s.available && (Source.compare jaroFn s ns).isSimilarEnough) = true
                  then some s else none) with
            | some selected => some (sel.applyAll selected.id (fun t => t.update now ns))
            | none => some { sel with storedSources := sel.storedSources ++ [ns] }) := by
      simp only [SourceSelector.handleSinkInputEvent, hfind, hsel, Option.filter]
      rfl
    rw [hstep]
    by_cases hcond : (!s.available && (Source.compare jaroFn s ns).isSimilarEnough) = true
    · rw [if_pos hcond, if_pos hcond]
      rfl
    · rw [if_neg hcond, if_neg hcond]
      rfl
  constructor
  · intro hav hsim
    have hcond : (!s.available && (Source.compare jaroFn s ns).isSimilarEnough) = true := by
      rw [hav, hsim]
      rfl
    rw [hcond, if_pos rfl] at hcall
    refine ⟨_, hcall, ?_, rfl, rfl, rfl, rfl, rfl, rfl, rfl, ?_, ?_⟩
    · show (sel.applyAll s.id (fun t => t.update now ns)).selectedSource = _
      simp only [SourceSelector.applyAll, hsel]
      show some (if s.id = s.id then Source.update now s ns else s) = _
      rw [if_pos rfl]
    · intro t ht
      have ht' : t ∈ (sel.applyAll s.id (fun t => t.update now ns)).storedSources := by
        exact List.mem_of_mem_filter ht
      simp only [SourceSelector.applyAll, List.mem_map] at ht'
      obtain ⟨u, hu, hut⟩ := ht'
      refine ⟨u, hu, ?_⟩
      rw [← hut]
      by_cases h : u.id = s.id
      · rw [if_pos h]
        rfl
      · rw [if_neg h]
    · calc ((sel.applyAll s.id (fun t => t.update now ns)).pruneDead now).storedSources.length
          ≤ (sel.applyAll s.id (fun t => t.update now ns)).storedSources.length :=
            List.length_filter_le _ _
        _ = sel.storedSources.length := by
            simp only [SourceSelector.applyAll, List.length_map]
  · intro hneg
    have hcond : (!s.available && (Source.compare jaroFn s ns).isSimilarEnough) = false := by
      cases hav : s.available with
      | true => rfl
      | false =>
        cases hsim : (Source.compare jaroFn s ns).isSimilarEnough with
        | false => rfl
        | true => exact absurd ⟨hav, hsim⟩ hneg
    rw [hcond] at hcall
    simp only [Bool.false_eq_true, if_false] at hcall
    exact ⟨_, hcall, rfl⟩

/-- C2 (witness): a concrete `New` event — the selected source `Foo` of
application `app` is unavailable; the incoming `Foobar` of the same
application (similarity score 1) reconciles into it in place, and the catalog
gains no entry. -/
theorem c2_witness :
    ∃ sel', (SourceSelector.mk none (some (sampleSource 0 1 "Foo" "app" false 0))
        [sampleSource 0 1 "Foo" "app" false 0]).handleSinkInputEvent
        (fun _ _ => 1) 100 [sampleSource 5 2 "Foobar" "app" true 100] 2 .new = some sel' ∧
      sel'.selectedSource = some ((sampleSource 0 1 "Foo" "app" false 0).update 100
        (sampleSource 5 2 "Foobar" "app" true 100)) ∧
      ((sampleSource 0 1 "Foo" "app" false 0).update 100
        (sampleSource 5 2 "Foobar" "app" true 100)).available = true ∧
      ((sampleSource 0 1 "Foo" "app" false 0).update 100
        (sampleSource 5 2 "Foobar" "app" true 100)).age = 100 ∧
      ((sampleSource 0 1 "Foo" "app" false 0).update 100
        (sampleSource 5 2 "Foobar" "app" true 100)).name =
        (sampleSource 5 2 "Foobar" "app" true 100).name ∧
      ((sampleSource 0 1 "Foo" "app" false 0).update 100
        (sampleSource 5 2 "Foobar" "app" true 100)).sinkInput =
        (sampleSource 5 2 "Foobar" "app" true 100).sinkInput ∧
      ((sampleSource 0 1 "Foo" "app" false 0).update 100
        (sampleSource 5 2 "Foobar" "app" true 100)).volume =
        (sampleSource 5 2 "Foobar" "app" true 100).volume ∧
      ((sampleSource 0 1 "Foo" "app" false 0).update 100
        (sampleSource 5 2 "Foobar" "app" true 100)).id =
        (sampleSource 0 1 "Foo" "app" false 0).id ∧
      ((sampleSource 0 1 "Foo" "app" false 0).update 100
        (sampleSource 5 2 "Foobar" "app" true 100)).application =
        (sampleSource 0 1 "Foo" "app" false 0).application ∧
      (∀ t ∈ sel'.storedSources,
        ∃ u ∈ (SourceSelector.mk none (some (sampleSource 0 1 "Foo" "app" false 0))
          [sampleSource 0 1 "Foo" "app" false 0]).storedSources, t.id = u.id) ∧
      sel'.storedSources.length ≤
        (SourceSelector.mk none (some (sampleSource 0 1 "Foo" "app" false 0))
          [sampleSource 0 1 "Foo" "app" false 0]).storedSources.length :=
  (c2_reconcile_or_append (fun _ _ => 1) 100
    [sampleSource 5 2 "Foobar" "app" true 100] 2
    (SourceSelector.mk none (some (sampleSource 0 1 "Foo" "app" false 0))
      [sampleSource 0 1 "Foo" "app" false 0])
    (sampleSource 0 1 "Foo" "app" false 0) (sampleSource 5 2 "Foobar" "app" true 100)
    rfl (by decide)).1 rfl (by with_unfolding_all decide)

/-- C9 (witness): symmetry at two concrete sources of the same application
with different names (the `Partial` branch), with a concrete symmetric
similarity function. -/
theorem c9_witness :
    Source.compare (fun _ _ => 0) (sampleSource 0 1 "Foo" "app" true 0)
      (sampleSource 1 2 "Bar" "app" true 0) =
    Source.compare (fun _ _ => 0) (sampleSource 1 2 "Bar" "app" true 0)
      (sampleSource 0 1 "Foo" "app" true 0) :=
  c9_compare_symmetric (fun _ _ => 0) (fun _ _ => rfl)
    (sampleSource 0 1 "Foo" "app" true 0) (sampleSource 1 2 "Bar" "app" true 0)
